import Mathlib

/-
Verification of the scratch-based swap engine of mcuboot (boot/bootutil/src/swap_scratch.c).

The C functions are shallowly embedded as Lean definitions.  Slots are modelled
as lists of sector sizes; flash contents relevant to a function are modelled as
the inputs that function actually inspects (for example the progress table is a
predicate from entry index to a written/erased bit).  The stateful swap engine
is modelled as a function emitting the ordered trace of flash operations it
performs together with the updated in-RAM boot status.  Machine integers are
modelled on Nat; where C unsigned subtraction cannot underflow under the stated
hypotheses, Nat truncated subtraction coincides with it.  Helpers declared in
bootloader headers outside this file's source (constants, boot_magic_compatible_check,
boot_write_status dispatch, boot_status_is_reset) are modelled from the design
specification and carry a doc comment saying so.
-/

namespace SwapScratch

/-- Modelled from the spec: magic classification value for a good (present) magic
signature.  The numeric encodings of the magic classification values and their
wildcard patterns live in a bootloader header outside the swap-scratch source;
only their distinctness matters here. -/
def BOOT_MAGIC_GOOD : Nat := 1

/-- Modelled from the spec: magic classification value for a corrupt magic field. -/
def BOOT_MAGIC_BAD : Nat := 2

/-- Modelled from the spec: magic classification value for a fully erased magic field. -/
def BOOT_MAGIC_UNSET : Nat := 3

/-- Modelled from the spec: wildcard pattern matching any magic classification. -/
def BOOT_MAGIC_ANY : Nat := 4

/-- Modelled from the spec: wildcard pattern matching any magic classification
other than good. -/
def BOOT_MAGIC_NOTGOOD : Nat := 5

/-- Modelled from the spec: single-octet trailer flag in the set state. -/
def BOOT_FLAG_SET : Nat := 1

/-- Modelled from the spec: single-octet trailer flag in a corrupt state. -/
def BOOT_FLAG_BAD : Nat := 2

/-- Modelled from the spec: single-octet trailer flag in the erased state. -/
def BOOT_FLAG_UNSET : Nat := 3

/-- Modelled from the spec: wildcard pattern matching any flag state. -/
def BOOT_FLAG_ANY : Nat := 4

/-- Modelled from the spec: status-source classification, no status available. -/
def BOOT_STATUS_SOURCE_NONE : Nat := 0

/-- Modelled from the spec: status-source classification, status lives in scratch. -/
def BOOT_STATUS_SOURCE_SCRATCH : Nat := 1

/-- Modelled from the spec: status-source classification, status lives in the
primary slot. -/
def BOOT_STATUS_SOURCE_PRIMARY_SLOT : Nat := 2

/-- Modelled from the spec: the number of phases per swapped granule (three:
stage, move, publish). -/
def BOOT_STATUS_STATE_COUNT : Nat := 3

/-- Modelled from the spec: the first value of the boot status granule index. -/
def BOOT_STATUS_IDX_0 : Nat := 1

/-- Modelled from the spec: encoding of phase S0 of a granule swap. -/
def BOOT_STATUS_STATE_0 : Nat := 1

/-- Modelled from the spec: encoding of phase S1 of a granule swap. -/
def BOOT_STATUS_STATE_1 : Nat := 2

/-- Modelled from the spec: encoding of phase S2 of a granule swap. -/
def BOOT_STATUS_STATE_2 : Nat := 3

/-- Modelled from the spec: slot index of the primary slot. -/
def BOOT_PRIMARY_SLOT : Nat := 0

/-- Modelled from the spec: slot index of the secondary slot. -/
def BOOT_SECONDARY_SLOT : Nat := 1

/-- Modelled from the spec: the number of slots per image; used by the header
locator as the sentinel meaning "read from scratch". -/
def BOOT_NUM_SLOTS : Nat := 2

/-- Modelled from the spec: swap-type enumeration value none. -/
def BOOT_SWAP_TYPE_NONE : Nat := 1

/-- The decoded swap state of one region's trailer, as returned by
boot_read_swap_state: magic classification, swap type, copy-done flag,
image-ok flag and recorded image number. -/
structure BootSwapState where
  magic : Nat
  swap_type : Nat
  copy_done : Nat
  image_ok : Nat
  image_num : Nat
  deriving DecidableEq, Repr

/-- Modelled from the spec: the comparison the status resolver uses between a
table pattern and a decoded magic value.  The any pattern matches every value,
the not-good pattern matches every value other than good, and a concrete
pattern matches only itself. -/
def boot_magic_compatible_check (tbl_val val : Nat) : Bool :=
  if tbl_val = BOOT_MAGIC_ANY then true
  else if tbl_val = BOOT_MAGIC_NOTGOOD then decide (val ≠ BOOT_MAGIC_GOOD)
  else decide (tbl_val = val)

/-- One row of the status-resolver table: expected primary magic pattern,
scratch magic pattern, primary copy-done pattern, and the resulting source. -/
structure BootStatusTable where
  bst_magic_primary_slot : Nat
  bst_magic_scratch : Nat
  bst_copy_done_primary_slot : Nat
  bst_status_source : Nat
  deriving DecidableEq, Repr

/-- The four-entry precedence-ordered table boot_status_tables of
swap_scratch.c. -/
def boot_status_tables : List BootStatusTable :=
  [⟨BOOT_MAGIC_GOOD, BOOT_MAGIC_NOTGOOD, BOOT_FLAG_SET, BOOT_STATUS_SOURCE_NONE⟩,
   ⟨BOOT_MAGIC_GOOD, BOOT_MAGIC_NOTGOOD, BOOT_FLAG_UNSET, BOOT_STATUS_SOURCE_PRIMARY_SLOT⟩,
   ⟨BOOT_MAGIC_ANY, BOOT_MAGIC_GOOD, BOOT_FLAG_ANY, BOOT_STATUS_SOURCE_SCRATCH⟩,
   ⟨BOOT_MAGIC_UNSET, BOOT_MAGIC_ANY, BOOT_FLAG_UNSET, BOOT_STATUS_SOURCE_PRIMARY_SLOT⟩]

/-- The match condition applied to each table row inside the loop of
swap_status_source. -/
def table_matches (t : BootStatusTable) (sp ssc : BootSwapState) : Bool :=
  boot_magic_compatible_check t.bst_magic_primary_slot sp.magic &&
  boot_magic_compatible_check t.bst_magic_scratch ssc.magic &&
  (decide (t.bst_copy_done_primary_slot = BOOT_FLAG_ANY) ||
   decide (t.bst_copy_done_primary_slot = sp.copy_done))

/-- swap_status_source of swap_scratch.c: walk boot_status_tables in order and
return the source of the first row matching the pair of decoded swap states,
demoting a scratch result to none when, in a multi-image configuration, the
scratch record's image number is not the currently examined image; if no row
matches, return none. -/
def swap_status_source (multi_image : Bool) (cur_img : Nat)
    (sp ssc : BootSwapState) : Nat :=
  match boot_status_tables.find? (fun t => table_matches t sp ssc) with
  | some t =>
      let source := t.bst_status_source
      if multi_image ∧ source = BOOT_STATUS_SOURCE_SCRATCH ∧ ssc.image_num ≠ cur_img
      then BOOT_STATUS_SOURCE_NONE else source
  | none => BOOT_STATUS_SOURCE_NONE

/-- The claim's reading of the resolver, written as a precedence cascade of the
four rules followed by the multi-image demotion, used to compare against
swap_status_source. -/
def swap_status_source_spec (multi_image : Bool) (cur_img : Nat)
    (sp ssc : BootSwapState) : Nat :=
  let base :=
    if sp.magic = BOOT_MAGIC_GOOD ∧ ssc.magic ≠ BOOT_MAGIC_GOOD ∧
       sp.copy_done = BOOT_FLAG_SET then
      BOOT_STATUS_SOURCE_NONE
    else if sp.magic = BOOT_MAGIC_GOOD ∧ ssc.magic ≠ BOOT_MAGIC_GOOD ∧
            sp.copy_done = BOOT_FLAG_UNSET then
      BOOT_STATUS_SOURCE_PRIMARY_SLOT
    else if ssc.magic = BOOT_MAGIC_GOOD then
      BOOT_STATUS_SOURCE_SCRATCH
    else if sp.magic = BOOT_MAGIC_UNSET ∧ sp.copy_done = BOOT_FLAG_UNSET then
      BOOT_STATUS_SOURCE_PRIMARY_SLOT
    else BOOT_STATUS_SOURCE_NONE
  if multi_image ∧ base = BOOT_STATUS_SOURCE_SCRATCH ∧ ssc.image_num ≠ cur_img
  then BOOT_STATUS_SOURCE_NONE else base

/-- C1: for every pair of swap states read from the primary slot and the
scratch area, swap_status_source returns the source of the first matching rule
of the four-entry precedence-ordered table — (good, not-good, set) gives none;
(good, not-good, unset) gives primary; (any, good, any) gives scratch;
(unset, any, unset) gives primary — and in multi-image configurations a scratch
result whose recorded image number differs from the current image is demoted to
none. -/
theorem swap_status_source_eq_spec (multi_image : Bool) (cur_img : Nat)
    (sp ssc : BootSwapState) :
    swap_status_source multi_image cur_img sp ssc =
      swap_status_source_spec multi_image cur_img sp ssc := by
  unfold swap_status_source swap_status_source_spec
  simp only [boot_status_tables, List.find?, table_matches,
    boot_magic_compatible_check, BOOT_MAGIC_GOOD, BOOT_MAGIC_BAD,
    BOOT_MAGIC_UNSET, BOOT_MAGIC_ANY, BOOT_MAGIC_NOTGOOD, BOOT_FLAG_SET,
    BOOT_FLAG_BAD, BOOT_FLAG_UNSET, BOOT_FLAG_ANY]
  by_cases h1 : sp.magic = 1 <;>
  by_cases h2 : ssc.magic = 1 <;>
  by_cases h3 : sp.copy_done = 1 <;>
  by_cases h4 : sp.copy_done = 3 <;>
  by_cases h5 : sp.magic = 3 <;>
  first
    | exact absurd (h3.symm.trans h4) (by decide)
    | exact absurd (h1.symm.trans h5) (by decide)
    | simp [h1, h2, h3, h4, h5, eq_comm]

/-- The in-RAM boot status: granule index, phase state, the transient
use-scratch flag and the swap size. -/
structure BootStatus where
  idx : Nat
  state : Nat
  use_scratch : Bool
  swap_size : Nat
  deriving DecidableEq, Repr

/-- The result of the scanning loop of swap_read_status_bytes: the found flag,
the found_idx variable, the invalid flag, and the value of the loop counter i
when the loop stopped. -/
structure ScanRes where
  found : Bool
  found_idx : Nat
  invalid : Bool
  iexit : Nat
  deriving DecidableEq, Repr

/-- The entry-scanning loop of swap_read_status_bytes.  The progress table is
the predicate written (true when the entry at that index has been written,
false when it reads as erased); the fuel argument is the number of entries
still to scan, i the current entry index. -/
def scanGo (written : Nat → Bool) : Nat → Nat → Bool → Nat → ScanRes
  | 0, i, found, found_idx => ⟨found, found_idx, false, i⟩
  | fuel+1, i, found, found_idx =>
    if written i = false then
      if found = true ∧ found_idx = 0 then scanGo written fuel (i+1) found i
      else scanGo written fuel (i+1) found found_idx
    else if found = false then scanGo written fuel (i+1) true found_idx
    else if found_idx ≠ 0 then ⟨found, found_idx, true, i⟩
    else scanGo written fuel (i+1) found found_idx

/-- The scan of the whole progress table performed by swap_read_status_bytes. -/
def swap_read_status_scan (written : Nat → Bool) (max_entries : Nat) : ScanRes :=
  scanGo written max_entries 0 false 0

/-- swap_read_status_bytes of swap_scratch.c: scan the progress table, abort
(modelled as none) when an inconsistency was detected and validation of the
primary slot is disabled, and otherwise reconstruct bs.idx and bs.state from
the written/erased boundary; the returned flag reports whether an
inconsistency was detected. -/
def swap_read_status_bytes (validate_primary_slot : Bool) (written : Nat → Bool)
    (max_entries : Nat) (bs : BootStatus) : Option (BootStatus × Bool) :=
  let r := swap_read_status_scan written max_entries
  if r.invalid = true ∧ validate_primary_slot = false then none
  else
    let bs' := if r.found = true then
        let fidx := if r.found_idx = 0 then r.iexit else r.found_idx
        {bs with idx := fidx / BOOT_STATUS_STATE_COUNT + 1,
                 state := fidx % BOOT_STATUS_STATE_COUNT + 1}
      else bs
    some (bs', r.invalid)

lemma scanGo_all_written (k : Nat) :
    ∀ fuel i, i + fuel ≤ k →
      scanGo (fun j => decide (j < k)) fuel i true 0 = ⟨true, 0, false, i + fuel⟩ := by
  intro fuel
  induction fuel with
  | zero => intro i _; simp [scanGo]
  | succ m ih =>
    intro i hik
    have hi : i < k := by omega
    have harr : i + (m + 1) = (i + 1) + m := by omega
    rw [harr]
    have := ih (i+1) (by omega)
    simp [scanGo, hi, this]

lemma scanGo_tail_erased (k : Nat) :
    ∀ fuel i fidx, k ≤ i → fidx ≠ 0 →
      scanGo (fun j => decide (j < k)) fuel i true fidx = ⟨true, fidx, false, i + fuel⟩ := by
  intro fuel
  induction fuel with
  | zero => intro i fidx _ _; simp [scanGo]
  | succ m ih =>
    intro i fidx hki hf
    have hi : ¬ (i < k) := by omega
    have harr : i + (m + 1) = (i + 1) + m := by omega
    rw [harr]
    have := ih (i+1) fidx (by omega) hf
    simp [scanGo, hi, hf, this]

lemma scanGo_cross (k : Nat) (hk : k ≠ 0) :
    ∀ fuel i, i ≤ k → k < i + fuel →
      scanGo (fun j => decide (j < k)) fuel i true 0 = ⟨true, k, false, i + fuel⟩ := by
  intro fuel
  induction fuel with
  | zero => intro i h1 h2; omega
  | succ m ih =>
    intro i hik hlt
    have harr : i + (m + 1) = (i + 1) + m := by omega
    rw [harr]
    by_cases hi : i < k
    · have := ih (i+1) (by omega) (by omega)
      simp [scanGo, hi, this]
    · have hieq : i = k := by omega
      have := scanGo_tail_erased k m (i+1) i (by omega) (by omega)
      rw [hieq] at this ⊢
      simp [scanGo, hi, hk, this]

/-- C4: reading back a progress table into which exactly k consecutive entries
have been written from the lowest offset, all later entries erased, yields
bs.idx = k / M + 1 and bs.state = k % M + 1 with M the number of phases per
sector, and no inconsistency. -/
theorem swap_read_status_bytes_roundtrip (validate : Bool) (bs : BootStatus)
    (k n : Nat) (hk : 1 ≤ k) (hkn : k ≤ n) :
    swap_read_status_bytes validate (fun j => decide (j < k)) n bs =
      some ({bs with idx := k / BOOT_STATUS_STATE_COUNT + 1,
                     state := k % BOOT_STATUS_STATE_COUNT + 1}, false) := by
  obtain ⟨m, rfl⟩ : ∃ m, n = m + 1 := ⟨n - 1, by omega⟩
  have h0 : 0 < k := by omega
  have hscan : swap_read_status_scan (fun j => decide (j < k)) (m+1) =
      ⟨true, if k = m + 1 then 0 else k, false, m + 1⟩ := by
    unfold swap_read_status_scan
    have hstep : scanGo (fun j => decide (j < k)) (m+1) 0 false 0 =
        scanGo (fun j => decide (j < k)) m 1 true 0 := by
      simp [scanGo, h0]
    rw [hstep]
    by_cases hkm : k = m + 1
    · rw [if_pos hkm]
      have := scanGo_all_written k m 1 (by omega)
      rw [this]
      simp [Nat.add_comm]
    · rw [if_neg hkm]
      have := scanGo_cross k (by omega) m 1 (by omega) (by omega)
      rw [this]
      simp [Nat.add_comm]
  unfold swap_read_status_bytes
  rw [hscan]
  by_cases hkm : k = m + 1
  · simp [hkm]
  · have hk0 : ¬ (k = 0) := by omega
    simp [hkm, hk0]

/-- Witness for the C4 theorem at k = 4 written entries of n = 7, so that
idx = 2 and state = 2. -/
theorem swap_read_status_bytes_roundtrip_witness :
    swap_read_status_bytes false (fun j => decide (j < 4)) 7 ⟨1, 1, false, 0⟩ =
      some (⟨4 / BOOT_STATUS_STATE_COUNT + 1, 4 % BOOT_STATUS_STATE_COUNT + 1, false, 0⟩, false) :=
  swap_read_status_bytes_roundtrip false ⟨1, 1, false, 0⟩ 4 7 (by decide) (by decide)

/-- A scan outcome witnessing inconsistency: the invalid flag is raised, the
loop did find a written entry, and the recorded boundary is nonzero. -/
def scanBad (r : ScanRes) : Prop :=
  r.invalid = true ∧ r.found = true ∧ r.found_idx ≠ 0

lemma scanGo_inv1 (w : Nat → Bool) :
    ∀ fuel i fidx, fidx ≠ 0 → (∃ p, i ≤ p ∧ p < i + fuel ∧ w p = true) →
      scanBad (scanGo w fuel i true fidx) := by
  intro fuel
  induction fuel with
  | zero => rintro i fidx _ ⟨p, h1, h2, _⟩; omega
  | succ m ih =>
    rintro i fidx hf ⟨p, hip, hpm, hwp⟩
    by_cases hw : w i = true
    · simp [scanGo, scanBad, hw, hf]
    · have hw' : w i = false := by simpa using hw
      have hpi : p ≠ i := by
        intro h
        rw [h, hw'] at hwp
        exact absurd hwp (by decide)
      have := ih (i+1) fidx hf ⟨p, by omega, by omega, hwp⟩
      simp [scanGo, hw', hf, this]

lemma scanGo_inv2 (w : Nat → Bool) :
    ∀ fuel i, i ≠ 0 →
      (∃ p2 p3, i ≤ p2 ∧ p2 < p3 ∧ p3 < i + fuel ∧ w p2 = false ∧ w p3 = true) →
      scanBad (scanGo w fuel i true 0) := by
  intro fuel
  induction fuel with
  | zero => rintro i _ ⟨p2, p3, h1, h2, h3, _, _⟩; omega
  | succ m ih =>
    rintro i hi ⟨p2, p3, hip, h23, h3m, hw2, hw3⟩
    by_cases hw : w i = true
    · have hpi : p2 ≠ i := by
        intro h
        rw [h, hw] at hw2
        exact absurd hw2 (by decide)
      have := ih (i+1) (by omega) ⟨p2, p3, by omega, h23, by omega, hw2, hw3⟩
      simp [scanGo, hw, this]
    · have hw' : w i = false := by simpa using hw
      have := scanGo_inv1 w m (i+1) i hi ⟨p3, by omega, by omega, hw3⟩
      simp [scanGo, hw', this]

lemma scanGo_inv3 (w : Nat → Bool) :
    ∀ fuel i,
      (∃ p1 p2 p3, i ≤ p1 ∧ p1 < p2 ∧ p2 < p3 ∧ p3 < i + fuel ∧
        w p1 = true ∧ w p2 = false ∧ w p3 = true) →
      scanBad (scanGo w fuel i false 0) := by
  intro fuel
  induction fuel with
  | zero => rintro i ⟨p1, p2, p3, h1, h2, h3, h4, _⟩; omega
  | succ m ih =>
    rintro i ⟨p1, p2, p3, hip, h12, h23, h3m, hw1, hw2, hw3⟩
    by_cases hw : w i = true
    · have := scanGo_inv2 w m (i+1) (by omega)
        ⟨p2, p3, by omega, h23, by omega, hw2, hw3⟩
      simp [scanGo, hw, this]
    · have hw' : w i = false := by simpa using hw
      have hpi : p1 ≠ i := by
        intro h
        rw [h, hw'] at hw1
        exact absurd hw1 (by decide)
      have := ih (i+1) ⟨p1, p2, p3, by omega, h12, h23, by omega, hw1, hw2, hw3⟩
      simp [scanGo, hw', this]

/-- C5: on a progress table holding a written entry after an erased entry that
itself follows a written entry, swap_read_status_bytes detects the
inconsistency; with validation of the primary slot enabled it continues and
still returns the boundary-derived idx and state together with the raised
flag, and with validation disabled it aborts. -/
theorem swap_read_status_bytes_inconsistent (validate : Bool) (w : Nat → Bool)
    (n : Nat) (bs : BootStatus) (p1 p2 p3 : Nat)
    (h12 : p1 < p2) (h23 : p2 < p3) (h3n : p3 < n)
    (hw1 : w p1 = true) (hw2 : w p2 = false) (hw3 : w p3 = true) :
    (swap_read_status_scan w n).invalid = true ∧
    (validate = false → swap_read_status_bytes validate w n bs = none) ∧
    (validate = true → swap_read_status_bytes validate w n bs =
      some ({bs with
              idx := (swap_read_status_scan w n).found_idx / BOOT_STATUS_STATE_COUNT + 1,
              state := (swap_read_status_scan w n).found_idx % BOOT_STATUS_STATE_COUNT + 1},
            true)) := by
  have hbad : scanBad (swap_read_status_scan w n) :=
    scanGo_inv3 w n 0 ⟨p1, p2, p3, by omega, h12, h23, by omega, hw1, hw2, hw3⟩
  obtain ⟨hinv, hfound, hfidx⟩ := hbad
  refine ⟨hinv, ?_, ?_⟩
  · intro hv
    unfold swap_read_status_bytes
    simp [hinv, hv]
  · intro hv
    unfold swap_read_status_bytes
    simp [hinv, hv, hfound, hfidx]

/-- Witness for the C5 theorem on the table written, erased, written (pattern
at entries 0, 1, 2 of a four-entry table), exercising both validation modes. -/
theorem swap_read_status_bytes_inconsistent_witness :
    (swap_read_status_scan (fun j => decide (j = 0 ∨ j = 2)) 4).invalid = true ∧
    (false = false → swap_read_status_bytes false (fun j => decide (j = 0 ∨ j = 2)) 4
        ⟨1, 1, false, 0⟩ = none) ∧
    (false = true → swap_read_status_bytes false (fun j => decide (j = 0 ∨ j = 2)) 4
        ⟨1, 1, false, 0⟩ =
      some ({ idx := (swap_read_status_scan (fun j => decide (j = 0 ∨ j = 2)) 4).found_idx /
                        BOOT_STATUS_STATE_COUNT + 1,
              state := (swap_read_status_scan (fun j => decide (j = 0 ∨ j = 2)) 4).found_idx %
                        BOOT_STATUS_STATE_COUNT + 1,
              use_scratch := false, swap_size := 0 }, true)) :=
  swap_read_status_bytes_inconsistent false (fun j => decide (j = 0 ∨ j = 2)) 4
    ⟨1, 1, false, 0⟩ 0 1 2 (by decide) (by decide) (by decide)
    (by decide) (by decide) (by decide)

/-- Slot and scratch geometry.  The two slots are lists of sector sizes; the
remaining fields are the quantities the engine obtains from the flash-area
adapter and the trailer codec: the scratch area size used for granule sizing,
the full scratch flash-area size used for erases, the primary flash-area size,
the flash write alignment, the slot trailer size, the scratch-area trailer
size, and the offset of the status area inside the scratch trailer. -/
structure Geo where
  primary : List Nat
  secondary : List Nat
  scratchSz : Nat
  scratchFapSz : Nat
  primaryFapSz : Nat
  writeSz : Nat
  trailerSz : Nat
  scratchTrailerSz : Nat
  scratchStatusOff : Nat
  deriving DecidableEq, Repr

/-- Size of the sector at a given index of a slot; out-of-range reads yield 0,
matching a zero-initialised sector table. -/
def boot_img_sector_size (l : List Nat) (i : Nat) : Nat := l.getD i 0

/-- Offset of the sector at a given index of a slot (the sum of all earlier
sector sizes). -/
def boot_img_sector_off (l : List Nat) (idx : Nat) : Nat := (l.take idx).sum

/-- Backward walk of boot_get_first_trailer_sector: cur is the sector index
currently reached and acc the accumulated span of the sectors walked so far;
the walk stops when the span covers the trailer. -/
def ftsGo (l : List Nat) (trailer_sz : Nat) : Nat → Nat → Nat
  | 0, _ => 0
  | cur+1, acc =>
    if trailer_sz ≤ acc then cur+1
    else ftsGo l trailer_sz cur (acc + boot_img_sector_size l cur)

/-- boot_get_first_trailer_sector of swap_scratch.c: the index of the first
sector of a slot that holds image-trailer data. -/
def boot_get_first_trailer_sector (l : List Nat) (trailer_sz : Nat) : Nat :=
  ftsGo l trailer_sz (l.length - 1) (boot_img_sector_size l (l.length - 1))

/-- get_first_trailer_sector_end_off of swap_scratch.c: the offset of the end
of the first sector of a slot that holds image-trailer data. -/
def get_first_trailer_sector_end_off (l : List Nat) (trailer_sz : Nat) : Nat :=
  boot_img_sector_off l (boot_get_first_trailer_sector l trailer_sz) +
  boot_img_sector_size l (boot_get_first_trailer_sector l trailer_sz)

/-- Outcome of the scanning loop of boot_slots_compatible: either the loop
returned 0 early, or it finished with the final indices and the accumulated
boundary sizes. -/
inductive CompatLoopRes
  | retZero
  | finished (i j psz ssz : Nat)
  deriving DecidableEq, Repr

/-- The scanning loop of boot_slots_compatible.  i and j are the sector
indices into the primary respectively secondary slot, sz0 and sz1 the running
sums since the last common boundary, smaller the flag recording which slot
advanced alone inside the current chunk, psz and ssz the boundary-accumulated
slot sizes.  The loop is given fuel because, on some degenerate layouts, the C
loop walks past the end of a sector table without terminating. -/
def compatLoopGo (p s : List Nat) (scratch : Nat) :
    Nat → Nat → Nat → Nat → Nat → Nat → Nat → Nat → Option CompatLoopRes
  | 0, _, _, _, _, _, _, _ => none
  | fuel+1, i, j, sz0, sz1, smaller, psz, ssz =>
    if i < p.length ∨ j < s.length then
      let step : Option (Nat × Nat × Nat × Nat × Nat) :=
        if sz0 = sz1 then
          some (i+1, j+1, sz0 + boot_img_sector_size p i,
                sz1 + boot_img_sector_size s j, smaller)
        else if sz0 < sz1 then
          if smaller = 2 then none
          else some (i+1, j, sz0 + boot_img_sector_size p i, sz1, 1)
        else
          if smaller = 1 then none
          else some (i, j+1, sz0, sz1 + boot_img_sector_size s j, 2)
      match step with
      | none => some CompatLoopRes.retZero
      | some (i', j', sz0', sz1', smaller') =>
        if sz0' = sz1' then
          if sz0' > scratch ∨ sz1' > scratch then some CompatLoopRes.retZero
          else compatLoopGo p s scratch fuel i' j' 0 0 0 (psz + sz0') (ssz + sz1')
        else compatLoopGo p s scratch fuel i' j' sz0' sz1' smaller' psz ssz
    else some (CompatLoopRes.finished i j psz ssz)

/-- boot_slots_compatible of swap_scratch.c (swap-using-scratch configuration,
decompression disabled): reject when a slot has more sectors than the allowed
maximum, run the lock-step scan, and finally reject when the loop did not
consume both slots exactly or the boundary-accumulated sizes disagree. -/
def boot_slots_compatible (p s : List Nat) (scratch maxSectors fuel : Nat) :
    Option Bool :=
  if p.length > maxSectors ∨ s.length > maxSectors then some false
  else
    match compatLoopGo p s scratch fuel 0 0 0 0 0 0 0 with
    | none => none
    | some CompatLoopRes.retZero => some false
    | some (CompatLoopRes.finished i j psz ssz) =>
      if i ≠ p.length ∨ j ≠ s.length ∨ psz ≠ ssz then some false else some true

/-- C6: the claim is that boot_slots_compatible returns 0 whenever the total
sizes of the two slots disagree.  The code contradicts this (and its own
final total-size comparison, which only accumulates at common boundaries and
therefore can never fire): a one-sector 0x1000 primary against a one-sector
0x2000 secondary has unequal totals, consumes both sector lists exactly, and
is reported compatible. -/
theorem boot_slots_compatible_total_size_bug :
    boot_slots_compatible [4096] [8192] 8192 128 8 = some true ∧
    ([4096] : List Nat).sum ≠ ([8192] : List Nat).sum := by
  constructor
  · rfl
  · decide

/-- The three flash regions the swap engine touches. -/
inductive Area
  | primary
  | secondary
  | scratch
  deriving DecidableEq, Repr

/-- One flash operation performed by the swap engine.  The engine is modelled
as emitting the ordered trace of these operations; reads are not traced, their
results are supplied as inputs (the scr oracle below). -/
inductive Op
  | eraseRegion (a : Area) (off len : Nat) (reverse : Bool)
  | copyRegion (src dst : Area) (srcOff dstOff len : Nat)
  | statusInit (a : Area)
  | scrambleTrailer (a : Area)
  | writeStatus (a : Area) (idx st : Nat)
  | writeImageOk (a : Area)
  | writeSwapInfo (a : Area) (swapType imageIndex : Nat)
  | writeSwapSize (a : Area) (sz : Nat)
  | writeEncKey (a : Area) (slot : Nat)
  | writeMagic (a : Area)
  deriving DecidableEq, Repr

/-- Modelled from the spec: boot_write_status persists the progress entry for
the current granule index and phase into the scratch trailer while the status
is being maintained in scratch (use_scratch set) and into the primary slot
trailer otherwise. -/
def writeStatusOp (bs : BootStatus) : Op :=
  Op.writeStatus (if bs.use_scratch then Area.scratch else Area.primary) bs.idx bs.state

/-- The copy-size computation at the top of boot_swap_sectors: when the swapped
range reaches into the first trailer sector of the primary slot, the copy stops
at the trailer start, further clamped so the scratch area's own trailer is not
overwritten. -/
def boot_swap_copy_sz (g : Geo) (idx sz : Nat) : Nat :=
  let img_off := boot_img_sector_off g.primary idx
  let first_trailer_sector_primary := boot_get_first_trailer_sector g.primary g.trailerSz
  if img_off + sz > boot_img_sector_off g.primary first_trailer_sector_primary then
    let c := g.primaryFapSz - img_off - g.trailerSz
    if c > g.scratchStatusOff then g.scratchStatusOff else c
  else sz

/-- boot_swap_sectors of swap_scratch.c, modelled as the ordered trace of flash
operations it performs together with the updated boot status.  idx is the
first sector of the swapped range, sz its byte size; enc tells whether
encryption support is compiled in, imageIndex is the current image number and
scr the swap state that boot_read_swap_state reads back from the scratch
trailer during phase S2. -/
def boot_swap_sectors (g : Geo) (enc : Bool) (imageIndex : Nat)
    (scr : BootSwapState) (idx sz : Nat) (bs : BootStatus) :
    List Op × BootStatus :=
  let img_off := boot_img_sector_off g.primary idx
  let first_trailer_sector_primary := boot_get_first_trailer_sector g.primary g.trailerSz
  let copy_sz := boot_swap_copy_sz g idx sz
  let bs0 : BootStatus :=
    {bs with use_scratch := decide (bs.idx = BOOT_STATUS_IDX_0 ∧ copy_sz ≠ sz)}
  let s0 : List Op × BootStatus :=
    if bs0.state = BOOT_STATUS_STATE_0 then
      let initOps : List Op :=
        if bs0.idx = BOOT_STATUS_IDX_0 then
          [Op.statusInit Area.scratch] ++
          (if bs0.use_scratch then [] else
            [Op.scrambleTrailer Area.primary, Op.statusInit Area.primary,
             Op.eraseRegion Area.scratch 0 g.scratchFapSz false])
        else []
      ([Op.eraseRegion Area.scratch 0 g.scratchFapSz false] ++ initOps ++
       [Op.copyRegion Area.secondary Area.scratch img_off 0 copy_sz,
        writeStatusOp bs0],
       {bs0 with state := BOOT_STATUS_STATE_1})
    else ([], bs0)
  let bs1 := s0.2
  let s1 : List Op × BootStatus :=
    if bs1.state = BOOT_STATUS_STATE_1 then
      let erase_sz :=
        if bs1.idx = BOOT_STATUS_IDX_0 ∧ bs1.use_scratch = true then
          boot_img_sector_off g.secondary
            (boot_get_first_trailer_sector g.secondary g.trailerSz) - img_off
        else sz
      let scrambleOps : List Op :=
        if bs1.idx = BOOT_STATUS_IDX_0 then [Op.scrambleTrailer Area.secondary] else []
      (scrambleOps ++
       (if erase_sz > 0 then [Op.eraseRegion Area.secondary img_off erase_sz false] else []) ++
       [Op.copyRegion Area.primary Area.secondary img_off img_off copy_sz,
        writeStatusOp bs1],
       {bs1 with state := BOOT_STATUS_STATE_2})
    else ([], bs1)
  let bs2 := s1.2
  let s2 : List Op × BootStatus :=
    if bs2.state = BOOT_STATUS_STATE_2 then
      let erase_sz :=
        if bs2.use_scratch = true then
          boot_img_sector_off g.primary first_trailer_sector_primary - img_off
        else sz
      let scrambleOps : List Op :=
        if bs2.use_scratch = true then [Op.scrambleTrailer Area.primary] else []
      let trailerOps : List Op :=
        if bs2.use_scratch = true then
          [Op.copyRegion Area.scratch Area.primary g.scratchStatusOff (img_off + copy_sz)
             ((BOOT_STATUS_STATE_COUNT - 1) * g.writeSz)] ++
          (if scr.image_ok = BOOT_FLAG_SET then [Op.writeImageOk Area.primary] else []) ++
          (if scr.swap_type ≠ BOOT_SWAP_TYPE_NONE then
            [Op.writeSwapInfo Area.primary scr.swap_type imageIndex] else []) ++
          [Op.writeSwapSize Area.primary bs2.swap_size] ++
          (if enc then [Op.writeEncKey Area.primary 0, Op.writeEncKey Area.primary 1] else []) ++
          [Op.writeMagic Area.primary]
        else []
      let erase_scratch := bs2.use_scratch
      let bs2' := {bs2 with use_scratch := false}
      (scrambleOps ++
       (if erase_sz > 0 then [Op.eraseRegion Area.primary img_off erase_sz false] else []) ++
       [Op.copyRegion Area.scratch Area.primary 0 img_off copy_sz] ++ trailerOps ++
       [writeStatusOp bs2'] ++
       (if erase_scratch then [Op.eraseRegion Area.scratch 0 g.scratchFapSz true] else []),
       {bs2' with idx := bs2.idx + 1, state := BOOT_STATUS_STATE_0})
    else ([], bs2)
  (s0.1 ++ s1.1 ++ s2.1, s2.2)

lemma boot_swap_sectors_bs (g : Geo) (enc : Bool) (imageIndex : Nat)
    (scr : BootSwapState) (idx sz : Nat) (bs : BootStatus)
    (h : bs.state = 1 ∨ bs.state = 2 ∨ bs.state = 3) :
    (boot_swap_sectors g enc imageIndex scr idx sz bs).2 =
      ⟨bs.idx + 1, BOOT_STATUS_STATE_0, false, bs.swap_size⟩ := by
  rcases h with h | h | h <;>
    simp [boot_swap_sectors, h, BOOT_STATUS_STATE_0, BOOT_STATUS_STATE_1,
      BOOT_STATUS_STATE_2]

/-- C10: for every entry phase among S0, S1 and S2, a successful
boot_swap_sectors run leaves the in-RAM boot status with state S0, the
use-scratch flag cleared, and the granule index advanced by exactly one. -/
theorem boot_swap_sectors_advances (g : Geo) (enc : Bool) (imageIndex : Nat)
    (scr : BootSwapState) (idx sz : Nat) (bs : BootStatus)
    (h : bs.state = BOOT_STATUS_STATE_0 ∨ bs.state = BOOT_STATUS_STATE_1 ∨
         bs.state = BOOT_STATUS_STATE_2) :
    ((boot_swap_sectors g enc imageIndex scr idx sz bs).2).state = BOOT_STATUS_STATE_0 ∧
    ((boot_swap_sectors g enc imageIndex scr idx sz bs).2).use_scratch = false ∧
    ((boot_swap_sectors g enc imageIndex scr idx sz bs).2).idx = bs.idx + 1 := by
  rw [boot_swap_sectors_bs g enc imageIndex scr idx sz bs (by
    simpa [BOOT_STATUS_STATE_0, BOOT_STATUS_STATE_1, BOOT_STATUS_STATE_2] using h)]
  exact ⟨rfl, rfl, rfl⟩

/-- Witness for the C10 theorem: a concrete granule entered at phase S1. -/
theorem boot_swap_sectors_advances_witness :
    (((boot_swap_sectors ⟨[16, 16], [16, 16], 16, 16, 32, 4, 8, 8, 6⟩ false 0
        ⟨1, 1, 1, 1, 0⟩ 1 16 ⟨2, 2, false, 24⟩).2).state = BOOT_STATUS_STATE_0 ∧
     ((boot_swap_sectors ⟨[16, 16], [16, 16], 16, 16, 32, 4, 8, 8, 6⟩ false 0
        ⟨1, 1, 1, 1, 0⟩ 1 16 ⟨2, 2, false, 24⟩).2).use_scratch = false ∧
     ((boot_swap_sectors ⟨[16, 16], [16, 16], 16, 16, 32, 4, 8, 8, 6⟩ false 0
        ⟨1, 1, 1, 1, 0⟩ 1 16 ⟨2, 2, false, 24⟩).2).idx = (2 : Nat) + 1) :=
  boot_swap_sectors_advances ⟨[16, 16], [16, 16], 16, 16, 32, 4, 8, 8, 6⟩ false 0
    ⟨1, 1, 1, 1, 0⟩ 1 16 ⟨2, 2, false, 24⟩ (by decide)

/-- Backward accumulation loop of boot_copy_sz.  The first argument is one
past the sector index currently considered (0 stands for index -1), the second
the byte count accumulated so far; returns the final count and the resulting
first sector index (the C out_first_sector_idx, which is the last considered
index plus one). -/
def copySzGo (p : List Nat) (scratch : Nat) : Nat → Nat → Nat × Nat
  | 0, sz => (sz, 0)
  | k+1, sz =>
    let new_sz := sz + boot_img_sector_size p k
    if new_sz > scratch then (sz, k+1) else copySzGo p scratch k new_sz

/-- boot_copy_sz of swap_scratch.c: walk backward from the last sector of the
swapped range, accumulating sector sizes while they fit in the scratch area;
returns the byte count and the first sector index of the granule. -/
def boot_copy_sz (p : List Nat) (scratch : Nat) (last_sector_idx : Nat) : Nat × Nat :=
  copySzGo p scratch (last_sector_idx + 1) 0

/-- The loop of find_last_sector_idx: advance each slot's cumulative size while
it is below the copy size or behind the other slot, stopping when both reach
the copy size and agree; returns the primary index reached.  Fuel bounds the
C while-true loop. -/
def findLastGo (p s : List Nat) (copy_size : Nat) :
    Nat → Nat → Nat → Nat → Nat → Option Nat
  | 0, _, _, _, _ => none
  | fuel+1, ip, js, psz, ssz =>
    let pstep : Nat × Nat :=
      if psz < copy_size ∨ psz < ssz then (psz + boot_img_sector_size p ip, ip + 1)
      else (psz, ip)
    let sstep : Nat × Nat :=
      if ssz < copy_size ∨ ssz < pstep.1 then (ssz + boot_img_sector_size s js, js + 1)
      else (ssz, js)
    if copy_size ≤ pstep.1 ∧ copy_size ≤ sstep.1 ∧ pstep.1 = sstep.1 then some pstep.2
    else findLastGo p s copy_size fuel pstep.2 sstep.2 pstep.1 sstep.1

/-- find_last_sector_idx of swap_scratch.c: the index of the last primary-slot
sector that participates in the swap (-1 when nothing does). -/
def find_last_sector_idx (p s : List Nat) (copy_size fuel : Nat) : Option Int :=
  (findLastGo p s copy_size fuel 0 0 0 0).map (fun ip => (ip : Int) - 1)

/-- The counting loop of find_swap_count: walk granules backward from the last
participating sector. -/
def findSwapGo (p : List Nat) (scratch : Nat) : Nat → Int → Option Nat
  | 0, _ => none
  | fuel+1, last_sector_idx =>
    if 0 ≤ last_sector_idx then
      let r := boot_copy_sz p scratch last_sector_idx.toNat
      (findSwapGo p scratch fuel ((r.2 : Int) - 1)).map (· + 1)
    else some 0

/-- find_swap_count of swap_scratch.c: the number of swap operations needed to
swap copy_size bytes. -/
def find_swap_count (p s : List Nat) (scratch copy_size fuel : Nat) : Option Nat :=
  (find_last_sector_idx p s copy_size fuel).bind (findSwapGo p scratch fuel)

/-- Record of one boot_swap_sectors invocation made by swap_run: the ordinal
of the granule in the backward walk (the C swap_idx), the first sector index
and size passed, and the phase recorded in the boot status on entry. -/
structure CallRec where
  ordinal : Nat
  firstSector : Nat
  sz : Nat
  entryState : Nat
  deriving DecidableEq, Repr

/-- The outer loop of swap_run: walk granules backward; skip a granule when its
ordinal is below the persisted granule index, and otherwise run
boot_swap_sectors on it.  Returns the invocation records and the final boot
status. -/
def swapRunGo (g : Geo) (enc : Bool) (imageIndex : Nat) (scr : BootSwapState) :
    Nat → Int → Nat → BootStatus → Option (List CallRec × BootStatus)
  | 0, _, _, _ => none
  | fuel+1, last_sector_idx, swap_idx, bs =>
    if 0 ≤ last_sector_idx then
      let r := boot_copy_sz g.primary g.scratchSz last_sector_idx.toNat
      if bs.idx - BOOT_STATUS_IDX_0 ≤ swap_idx then
        let bs' := (boot_swap_sectors g enc imageIndex scr r.2 r.1 bs).2
        (swapRunGo g enc imageIndex scr fuel ((r.2 : Int) - 1) (swap_idx + 1) bs').map
          (fun x => (⟨swap_idx, r.2, r.1, bs.state⟩ :: x.1, x.2))
      else swapRunGo g enc imageIndex scr fuel ((r.2 : Int) - 1) (swap_idx + 1) bs
    else some ([], bs)

/-- swap_run of swap_scratch.c: locate the last participating sector and drive
the backward granule walk. -/
def swap_run (g : Geo) (enc : Bool) (imageIndex : Nat) (scr : BootSwapState)
    (fuel : Nat) (bs : BootStatus) (copy_size : Nat) :
    Option (List CallRec × BootStatus) :=
  (find_last_sector_idx g.primary g.secondary copy_size fuel).bind
    (fun last => swapRunGo g enc imageIndex scr fuel last 0 bs)

lemma swapRunGo_length (g : Geo) (enc : Bool) (ii : Nat) (scr : BootSwapState) :
    ∀ fuel last swap_idx bs,
      bs.state = BOOT_STATUS_STATE_0 → bs.idx = swap_idx + 1 →
      (swapRunGo g enc ii scr fuel last swap_idx bs).map (fun x => x.1.length) =
        findSwapGo g.primary g.scratchSz fuel last := by
  intro fuel
  induction fuel with
  | zero => intro last swap_idx bs _ _; rfl
  | succ m ih =>
    intro last swap_idx bs h1 h2
    by_cases hl : (0 : Int) ≤ last
    · have hguard : bs.idx - BOOT_STATUS_IDX_0 ≤ swap_idx := by
        simp [h2, BOOT_STATUS_IDX_0]
      have hbs' := boot_swap_sectors_bs g enc ii scr
        (boot_copy_sz g.primary g.scratchSz last.toNat).2
        (boot_copy_sz g.primary g.scratchSz last.toNat).1 bs (Or.inl h1)
      have ih' := ih (((boot_copy_sz g.primary g.scratchSz last.toNat).2 : Int) - 1)
        (swap_idx + 1) ⟨bs.idx + 1, BOOT_STATUS_STATE_0, false, bs.swap_size⟩ rfl
        (by simp; omega)
      simp only [swapRunGo, findSwapGo, if_pos hl, if_pos hguard, hbs']
      rw [← ih', Option.map_map, Option.map_map]
      rfl
    · simp [swapRunGo, findSwapGo, hl]

/-- C7: find_swap_count equals the number of boot_swap_sectors invocations the
outer loop of swap_run performs in a crash-free run from a fresh boot
status. -/
theorem find_swap_count_eq_swap_run_iterations (g : Geo) (enc : Bool) (ii : Nat)
    (scr : BootSwapState) (fuel copy_size n : Nat) (bs : BootStatus)
    (hstate : bs.state = BOOT_STATUS_STATE_0) (hidx : bs.idx = BOOT_STATUS_IDX_0)
    (hn : find_swap_count g.primary g.secondary g.scratchSz copy_size fuel = some n) :
    ∃ recs bs2, swap_run g enc ii scr fuel bs copy_size = some (recs, bs2) ∧
      recs.length = n := by
  unfold find_swap_count at hn
  unfold swap_run
  cases hlast : find_last_sector_idx g.primary g.secondary copy_size fuel with
  | none => rw [hlast] at hn; exact absurd hn (by simp)
  | some last =>
    rw [hlast] at hn
    simp only [Option.some_bind] at hn
    have hidx' : bs.idx = 0 + 1 := by
      rw [hidx]; rfl
    have hlen := swapRunGo_length g enc ii scr fuel last 0 bs hstate hidx'
    rw [hn] at hlen
    cases hrun : swapRunGo g enc ii scr fuel last 0 bs with
    | none => rw [hrun] at hlen; exact absurd hlen (by simp)
    | some x =>
      rw [hrun] at hlen
      simp only [Option.map_some', Option.some.injEq] at hlen
      exact ⟨x.1, x.2, by simp [hrun], hlen⟩

/-- Witness for the C7 theorem: two equal 2-sector slots with a one-sector
scratch give a swap count of 2, and the crash-free run performs 2
invocations. -/
theorem find_swap_count_eq_swap_run_iterations_witness :
    ∃ recs bs2,
      swap_run ⟨[4, 4], [4, 4], 4, 4, 8, 1, 1, 1, 1⟩ false 0 ⟨1, 1, 1, 1, 0⟩ 10
          ⟨1, 1, false, 8⟩ 8 = some (recs, bs2) ∧ recs.length = 2 :=
  find_swap_count_eq_swap_run_iterations ⟨[4, 4], [4, 4], 4, 4, 8, 1, 1, 1, 1⟩
    false 0 ⟨1, 1, 1, 1, 0⟩ 10 8 2 ⟨1, 1, false, 8⟩ rfl rfl (by rfl)

lemma swapRunGo_post (g : Geo) (enc : Bool) (ii : Nat) (scr : BootSwapState) :
    ∀ fuel last swap_idx bs recs bs2,
      bs.state = BOOT_STATUS_STATE_0 → bs.idx = swap_idx + 1 →
      swapRunGo g enc ii scr fuel last swap_idx bs = some (recs, bs2) →
      ∀ r ∈ recs, swap_idx ≤ r.ordinal ∧ r.entryState = BOOT_STATUS_STATE_0 := by
  intro fuel
  induction fuel with
  | zero =>
    intro last swap_idx bs recs bs2 _ _ h
    exact absurd h (by simp [swapRunGo])
  | succ m ih =>
    intro last swap_idx bs recs bs2 h1 h2 hrun
    by_cases hl : (0 : Int) ≤ last
    · have hguard : bs.idx - BOOT_STATUS_IDX_0 ≤ swap_idx := by
        simp [h2, BOOT_STATUS_IDX_0]
      have hbs' := boot_swap_sectors_bs g enc ii scr
        (boot_copy_sz g.primary g.scratchSz last.toNat).2
        (boot_copy_sz g.primary g.scratchSz last.toNat).1 bs (Or.inl h1)
      simp only [swapRunGo, if_pos hl, if_pos hguard, hbs'] at hrun
      cases hrec : swapRunGo g enc ii scr m
          (((boot_copy_sz g.primary g.scratchSz last.toNat).2 : Int) - 1)
          (swap_idx + 1) ⟨bs.idx + 1, BOOT_STATUS_STATE_0, false, bs.swap_size⟩ with
      | none => rw [hrec] at hrun; exact absurd hrun (by simp)
      | some x =>
        rw [hrec] at hrun
        simp only [Option.map_some', Option.some.injEq, Prod.mk.injEq] at hrun
        obtain ⟨hrecs, hbs2⟩ := hrun
        intro r hr
        rw [← hrecs] at hr
        rcases List.mem_cons.mp hr with h | h
        · subst h; exact ⟨le_refl _, h1⟩
        · have hpost := ih _ (swap_idx + 1)
            ⟨bs.idx + 1, BOOT_STATUS_STATE_0, false, bs.swap_size⟩ x.1 x.2 rfl
            (by show bs.idx + 1 = swap_idx + 1 + 1; omega)
            (by rw [hrec]) r h
          have hord : swap_idx + 1 ≤ r.ordinal := hpost.1
          exact ⟨by omega, hpost.2⟩
    · simp only [swapRunGo, if_neg hl, Option.some.injEq, Prod.mk.injEq] at hrun
      obtain ⟨hrecs, _⟩ := hrun
      intro r hr
      rw [← hrecs] at hr
      exact absurd hr (List.not_mem_nil r)

lemma swapRunGo_resume (g : Geo) (enc : Bool) (ii : Nat) (scr : BootSwapState)
    (i0 st : Nat) (hst : st = 1 ∨ st = 2 ∨ st = 3) (hi0 : 1 ≤ i0) :
    ∀ fuel last swap_idx bs recs bs2,
      bs.idx = i0 → bs.state = st → swap_idx ≤ i0 - 1 →
      swapRunGo g enc ii scr fuel last swap_idx bs = some (recs, bs2) →
      ∀ r ∈ recs, i0 - 1 ≤ r.ordinal ∧
        (r.ordinal = i0 - 1 → r.entryState = st) ∧
        (i0 - 1 < r.ordinal → r.entryState = BOOT_STATUS_STATE_0) := by
  intro fuel
  induction fuel with
  | zero =>
    intro last swap_idx bs recs bs2 _ _ _ h
    exact absurd h (by simp [swapRunGo])
  | succ m ih =>
    intro last swap_idx bs recs bs2 hidx hstate hle hrun
    by_cases hl : (0 : Int) ≤ last
    · by_cases hg : swap_idx = i0 - 1
      · have hguard : bs.idx - BOOT_STATUS_IDX_0 ≤ swap_idx := by
          simp only [BOOT_STATUS_IDX_0, hidx]; omega
        have hbs' := boot_swap_sectors_bs g enc ii scr
          (boot_copy_sz g.primary g.scratchSz last.toNat).2
          (boot_copy_sz g.primary g.scratchSz last.toNat).1 bs (by rw [hstate]; exact hst)
        simp only [swapRunGo, if_pos hl, if_pos hguard, hbs'] at hrun
        cases hrec : swapRunGo g enc ii scr m
            (((boot_copy_sz g.primary g.scratchSz last.toNat).2 : Int) - 1)
            (swap_idx + 1) ⟨bs.idx + 1, BOOT_STATUS_STATE_0, false, bs.swap_size⟩ with
        | none => rw [hrec] at hrun; exact absurd hrun (by simp)
        | some x =>
          rw [hrec] at hrun
          simp only [Option.map_some', Option.some.injEq, Prod.mk.injEq] at hrun
          obtain ⟨hrecs, _⟩ := hrun
          intro r hr
          rw [← hrecs] at hr
          rcases List.mem_cons.mp hr with h | h
          · subst h
            refine ⟨by show i0 - 1 ≤ swap_idx; omega, fun _ => hstate, fun hcon => ?_⟩
            have hcon' : i0 - 1 < swap_idx := hcon
            omega
          · have hpost := swapRunGo_post g enc ii scr m _ (swap_idx + 1)
              ⟨bs.idx + 1, BOOT_STATUS_STATE_0, false, bs.swap_size⟩ x.1 x.2 rfl
              (by show bs.idx + 1 = swap_idx + 1 + 1; omega) (by rw [hrec]) r h
            have hord1 : swap_idx + 1 ≤ r.ordinal := hpost.1
            refine ⟨by omega, fun hord => ?_, fun _ => hpost.2⟩
            exact absurd hord (by omega)
      · have hguard : ¬ (bs.idx - BOOT_STATUS_IDX_0 ≤ swap_idx) := by
          simp only [BOOT_STATUS_IDX_0, hidx]; omega
        simp only [swapRunGo, if_pos hl, if_neg hguard] at hrun
        exact ih _ (swap_idx + 1) bs recs bs2 hidx hstate (by omega) hrun
    · simp only [swapRunGo, if_neg hl, Option.some.injEq, Prod.mk.injEq] at hrun
      obtain ⟨hrecs, _⟩ := hrun
      intro r hr
      rw [← hrecs] at hr
      exact absurd hr (List.not_mem_nil r)

/-- C2: on resume, swap_run invokes boot_swap_sectors only for granules whose
ordinal (counting from the highest-offset granule, from 0) is at least
bs.idx - 1; the granule at ordinal bs.idx - 1 is entered at the recorded phase
bs.state, and every later granule is entered at phase S0. -/
theorem swap_run_skips_completed_granules (g : Geo) (enc : Bool) (ii : Nat)
    (scr : BootSwapState) (fuel copy_size : Nat) (bs : BootStatus)
    (recs : List CallRec) (bs2 : BootStatus)
    (hst : bs.state = BOOT_STATUS_STATE_0 ∨ bs.state = BOOT_STATUS_STATE_1 ∨
           bs.state = BOOT_STATUS_STATE_2)
    (hi0 : BOOT_STATUS_IDX_0 ≤ bs.idx)
    (hrun : swap_run g enc ii scr fuel bs copy_size = some (recs, bs2)) :
    ∀ r ∈ recs, bs.idx - 1 ≤ r.ordinal ∧
      (r.ordinal = bs.idx - 1 → r.entryState = bs.state) ∧
      (bs.idx - 1 < r.ordinal → r.entryState = BOOT_STATUS_STATE_0) := by
  unfold swap_run at hrun
  cases hlast : find_last_sector_idx g.primary g.secondary copy_size fuel with
  | none => rw [hlast] at hrun; exact absurd hrun (by simp)
  | some last =>
    rw [hlast] at hrun
    simp only [Option.some_bind] at hrun
    have hi0' : 1 ≤ bs.idx := hi0
    exact swapRunGo_resume g enc ii scr bs.idx bs.state hst hi0' fuel last 0 bs recs
      bs2 rfl rfl (Nat.zero_le _) hrun

/-- Witness for the C2 theorem: resuming three equal-sector granules at
bs = (idx 2, phase S1) skips ordinal 0, enters ordinal 1 at the recorded
phase, and enters ordinal 2 at S0. -/
theorem swap_run_skips_completed_granules_witness :
    ((2 : Nat) - 1 ≤ (⟨1, 1, 4, 2⟩ : CallRec).ordinal) ∧
    ((⟨1, 1, 4, 2⟩ : CallRec).ordinal = (2 : Nat) - 1 →
      (⟨1, 1, 4, 2⟩ : CallRec).entryState = (⟨2, 2, false, 12⟩ : BootStatus).state) ∧
    ((2 : Nat) - 1 < (⟨1, 1, 4, 2⟩ : CallRec).ordinal →
      (⟨1, 1, 4, 2⟩ : CallRec).entryState = BOOT_STATUS_STATE_0) :=
  swap_run_skips_completed_granules ⟨[4, 4, 4], [4, 4, 4], 4, 4, 12, 1, 1, 1, 1⟩
    false 0 ⟨1, 1, 1, 1, 0⟩ 10 12 ⟨2, 2, false, 12⟩
    [⟨1, 1, 4, 2⟩, ⟨2, 0, 4, 1⟩] ⟨4, 1, false, 12⟩
    (Or.inr (Or.inl rfl)) (by decide) (by rfl)
    ⟨1, 1, 4, 2⟩ (by decide)

/-- Whether an operation writes bytes inside the primary slot's image trailer.
Per the data model the progress table is the first trailer field, so progress
entry writes and the status-area initialisation count as trailer writes. -/
def primaryTrailerWrite : Op → Bool
  | Op.statusInit Area.primary => true
  | Op.writeStatus Area.primary _ _ => true
  | Op.writeImageOk Area.primary => true
  | Op.writeSwapInfo Area.primary _ _ => true
  | Op.writeSwapSize Area.primary _ => true
  | Op.writeEncKey Area.primary _ => true
  | Op.writeMagic Area.primary => true
  | _ => false

/-- C3 counterexample: on a single-sector slot whose only granule carries the
trailer (use_scratch set), phase S2 writes the progress entry into the primary
slot's trailer after the magic write, so a trailer field of the primary is
written after magic within the phase. -/
theorem boot_swap_sectors_magic_not_last :
    ∃ i j : Fin ((boot_swap_sectors ⟨[16], [16], 16, 16, 16, 2, 8, 8, 6⟩ false 0
        ⟨1, 1, 1, 1, 0⟩ 0 16 ⟨1, 3, false, 8⟩).1).length,
      (i : Nat) < j ∧
      ((boot_swap_sectors ⟨[16], [16], 16, 16, 16, 2, 8, 8, 6⟩ false 0
        ⟨1, 1, 1, 1, 0⟩ 0 16 ⟨1, 3, false, 8⟩).1).get i = Op.writeMagic Area.primary ∧
      primaryTrailerWrite (((boot_swap_sectors ⟨[16], [16], 16, 16, 16, 2, 8, 8, 6⟩ false 0
        ⟨1, 1, 1, 1, 0⟩ 0 16 ⟨1, 3, false, 8⟩).1).get j) = true := by
  decide

/-- The operations phase S0 performs on the first granule when the trailer is
kept in scratch. -/
def s0OpsUseScratch (g : Geo) (idx sz bsIdx : Nat) : List Op :=
  [Op.eraseRegion Area.scratch 0 g.scratchFapSz false,
   Op.statusInit Area.scratch,
   Op.copyRegion Area.secondary Area.scratch (boot_img_sector_off g.primary idx) 0
     (boot_swap_copy_sz g idx sz),
   Op.writeStatus Area.scratch bsIdx BOOT_STATUS_STATE_0]

/-- The operations phase S1 performs on the first granule when the trailer is
kept in scratch. -/
def s1OpsUseScratch (g : Geo) (idx sz bsIdx : Nat) : List Op :=
  [Op.scrambleTrailer Area.secondary] ++
  (if (boot_img_sector_off g.secondary
        (boot_get_first_trailer_sector g.secondary g.trailerSz) -
       boot_img_sector_off g.primary idx) > 0 then
    [Op.eraseRegion Area.secondary (boot_img_sector_off g.primary idx)
       (boot_img_sector_off g.secondary
          (boot_get_first_trailer_sector g.secondary g.trailerSz) -
        boot_img_sector_off g.primary idx) false]
  else []) ++
  [Op.copyRegion Area.primary Area.secondary (boot_img_sector_off g.primary idx)
     (boot_img_sector_off g.primary idx) (boot_swap_copy_sz g idx sz),
   Op.writeStatus Area.scratch bsIdx BOOT_STATUS_STATE_1]

/-- The operations phase S2 performs before the magic write when the trailer is
kept in scratch. -/
def s2OpsBeforeMagic (g : Geo) (enc : Bool) (ii : Nat) (scr : BootSwapState)
    (idx sz swap_size : Nat) : List Op :=
  [Op.scrambleTrailer Area.primary] ++
  (if (boot_img_sector_off g.primary
        (boot_get_first_trailer_sector g.primary g.trailerSz) -
       boot_img_sector_off g.primary idx) > 0 then
    [Op.eraseRegion Area.primary (boot_img_sector_off g.primary idx)
       (boot_img_sector_off g.primary
          (boot_get_first_trailer_sector g.primary g.trailerSz) -
        boot_img_sector_off g.primary idx) false]
  else []) ++
  [Op.copyRegion Area.scratch Area.primary 0 (boot_img_sector_off g.primary idx)
     (boot_swap_copy_sz g idx sz),
   Op.copyRegion Area.scratch Area.primary g.scratchStatusOff
     (boot_img_sector_off g.primary idx + boot_swap_copy_sz g idx sz)
     ((BOOT_STATUS_STATE_COUNT - 1) * g.writeSz)] ++
  (if scr.image_ok = BOOT_FLAG_SET then [Op.writeImageOk Area.primary] else []) ++
  (if scr.swap_type ≠ BOOT_SWAP_TYPE_NONE then
    [Op.writeSwapInfo Area.primary scr.swap_type ii] else []) ++
  [Op.writeSwapSize Area.primary swap_size] ++
  (if enc then [Op.writeEncKey Area.primary 0, Op.writeEncKey Area.primary 1] else [])

/-- C3 amended: in phase S2 with use_scratch set, the magic write into the
primary slot's trailer comes after the copied progress bytes, image-ok when
set, swap-info when the swap type is not none, swap-size, and the wrapped keys
when encryption is enabled; the only trailer field of the primary written
after magic within the phase is the phase-terminating progress entry (followed
only by the reverse scratch erase, which does not touch the primary). -/
theorem boot_swap_sectors_magic_order (g : Geo) (enc : Bool) (ii : Nat)
    (scr : BootSwapState) (idx sz : Nat) (bs : BootStatus)
    (hst : bs.state = BOOT_STATUS_STATE_0 ∨ bs.state = BOOT_STATUS_STATE_1 ∨
           bs.state = BOOT_STATUS_STATE_2)
    (hidx : bs.idx = BOOT_STATUS_IDX_0)
    (hcs : boot_swap_copy_sz g idx sz ≠ sz) :
    ∃ pre,
      (boot_swap_sectors g enc ii scr idx sz bs).1 =
        pre ++ [Op.writeMagic Area.primary,
                Op.writeStatus Area.primary bs.idx BOOT_STATUS_STATE_2,
                Op.eraseRegion Area.scratch 0 g.scratchFapSz true] ∧
      Op.writeMagic Area.primary ∉ pre ∧
      ∀ i s, Op.writeStatus Area.primary i s ∉ pre := by
  rcases hst with h | h | h
  · refine ⟨s0OpsUseScratch g idx sz bs.idx ++ s1OpsUseScratch g idx sz bs.idx ++
      s2OpsBeforeMagic g enc ii scr idx sz bs.swap_size, ?_, ?_, ?_⟩
    · simp [boot_swap_sectors, s0OpsUseScratch, s1OpsUseScratch, s2OpsBeforeMagic,
        writeStatusOp, h, hidx, hcs, BOOT_STATUS_STATE_0, BOOT_STATUS_STATE_1,
        BOOT_STATUS_STATE_2, BOOT_STATUS_IDX_0, List.append_assoc]
    · simp only [s0OpsUseScratch, s1OpsUseScratch, s2OpsBeforeMagic, List.mem_append,
        List.mem_cons]
      split_ifs <;> simp
    · intro i s
      simp only [s0OpsUseScratch, s1OpsUseScratch, s2OpsBeforeMagic, List.mem_append,
        List.mem_cons]
      split_ifs <;> simp
  · refine ⟨s1OpsUseScratch g idx sz bs.idx ++
      s2OpsBeforeMagic g enc ii scr idx sz bs.swap_size, ?_, ?_, ?_⟩
    · simp [boot_swap_sectors, s1OpsUseScratch, s2OpsBeforeMagic,
        writeStatusOp, h, hidx, hcs, BOOT_STATUS_STATE_0, BOOT_STATUS_STATE_1,
        BOOT_STATUS_STATE_2, BOOT_STATUS_IDX_0, List.append_assoc]
    · simp only [s1OpsUseScratch, s2OpsBeforeMagic, List.mem_append, List.mem_cons]
      split_ifs <;> simp
    · intro i s
      simp only [s1OpsUseScratch, s2OpsBeforeMagic, List.mem_append, List.mem_cons]
      split_ifs <;> simp
  · refine ⟨s2OpsBeforeMagic g enc ii scr idx sz bs.swap_size, ?_, ?_, ?_⟩
    · simp [boot_swap_sectors, s2OpsBeforeMagic,
        writeStatusOp, h, hidx, hcs, BOOT_STATUS_STATE_0, BOOT_STATUS_STATE_1,
        BOOT_STATUS_STATE_2, BOOT_STATUS_IDX_0, List.append_assoc]
    · simp only [s2OpsBeforeMagic, List.mem_append, List.mem_cons]
      split_ifs <;> simp
    · intro i s
      simp only [s2OpsBeforeMagic, List.mem_append, List.mem_cons]
      split_ifs <;> simp

/-- Witness for the amended C3 theorem on a concrete trailer-carrying granule
entered at phase S1. -/
theorem boot_swap_sectors_magic_order_witness :
    ∃ pre,
      (boot_swap_sectors ⟨[16], [16], 16, 16, 16, 2, 8, 8, 6⟩ false 0 ⟨1, 1, 1, 1, 0⟩
          0 16 ⟨1, 2, false, 8⟩).1 =
        pre ++ [Op.writeMagic Area.primary,
                Op.writeStatus Area.primary 1 BOOT_STATUS_STATE_2,
                Op.eraseRegion Area.scratch 0 16 true] ∧
      Op.writeMagic Area.primary ∉ pre ∧
      ∀ i s, Op.writeStatus Area.primary i s ∉ pre :=
  boot_swap_sectors_magic_order ⟨[16], [16], 16, 16, 16, 2, 8, 8, 6⟩ false 0
    ⟨1, 1, 1, 1, 0⟩ 0 16 ⟨1, 2, false, 8⟩ (Or.inr (Or.inl rfl)) rfl (by decide)

/-- Modelled from the spec: boot_status_is_reset — the boot status is the
fresh value (first granule, phase S0), meaning no swap is in progress. -/
def boot_status_is_reset (bs : BootStatus) : Bool :=
  decide (bs.idx = BOOT_STATUS_IDX_0 ∧ bs.state = BOOT_STATUS_STATE_0)

/-- boot_read_image_header of swap_scratch.c, modelled as the selection of the
region the header is read from: 0 the primary slot, 1 the secondary slot, 2
(BOOT_NUM_SLOTS) the scratch area.  bsActive is the boot status pointer (none
when the caller passes NULL), swap_size the value boot_read_swap_size returns
from the status trailer; none models a non-terminating find_swap_count. -/
def boot_read_image_header (g : Geo) (fuel : Nat) (bsActive : Option BootStatus)
    (swap_size : Nat) (slot : Nat) : Option Nat :=
  match bsActive with
  | none => some slot
  | some bs =>
    if boot_status_is_reset bs then some slot
    else
      match find_swap_count g.primary g.secondary g.scratchSz swap_size fuel with
      | none => none
      | some swap_count =>
        some (
          if swap_count ≤ bs.idx - BOOT_STATUS_IDX_0 then
            (if slot = BOOT_PRIMARY_SLOT then BOOT_SECONDARY_SLOT else BOOT_PRIMARY_SLOT)
          else if bs.idx - BOOT_STATUS_IDX_0 = swap_count - 1 then
            (if slot = BOOT_SECONDARY_SLOT ∧ BOOT_STATUS_STATE_1 ≤ bs.state then
              BOOT_NUM_SLOTS
             else if slot = BOOT_PRIMARY_SLOT ∧ BOOT_STATUS_STATE_2 ≤ bs.state then
              BOOT_SECONDARY_SLOT
             else slot)
          else slot)

/-- The claim's case split for the header location, with N the swap count and
k the number of completed granules. -/
def header_location_spec (N slot : Nat) (bs : BootStatus) : Nat :=
  let k := bs.idx - 1
  if N ≤ k then
    (if slot = BOOT_PRIMARY_SLOT then BOOT_SECONDARY_SLOT else BOOT_PRIMARY_SLOT)
  else if k = N - 1 ∧ slot = BOOT_SECONDARY_SLOT ∧ BOOT_STATUS_STATE_1 ≤ bs.state then
    BOOT_NUM_SLOTS
  else if k = N - 1 ∧ slot = BOOT_PRIMARY_SLOT ∧ BOOT_STATUS_STATE_2 ≤ bs.state then
    BOOT_SECONDARY_SLOT
  else slot

/-- C8: during an in-progress swap with N = find_swap_count(swap_size) and
k = bs.idx - 1, the header is read from the opposite slot when k is at least
N; from scratch when k = N - 1, the requested slot is the secondary and the
phase is at least S1; from the secondary when k = N - 1, the requested slot is
the primary and the phase is at least S2; and from the requested slot in every
other case. -/
theorem boot_read_image_header_location (g : Geo) (fuel swap_size slot N : Nat)
    (bs : BootStatus) (hreset : boot_status_is_reset bs = false)
    (hN : find_swap_count g.primary g.secondary g.scratchSz swap_size fuel = some N) :
    boot_read_image_header g fuel (some bs) swap_size slot =
      some (header_location_spec N slot bs) := by
  unfold boot_read_image_header header_location_spec
  simp only [hreset, hN, Bool.false_eq_true, if_false, BOOT_STATUS_IDX_0]
  by_cases h1 : N ≤ bs.idx - 1
  · simp [h1]
  · by_cases h2 : bs.idx - 1 = N - 1
    · simp only [if_neg h1, if_pos h2, if_pos (by omega : bs.idx - 1 ≤ bs.idx - 1)]
      by_cases h3 : slot = BOOT_SECONDARY_SLOT ∧ BOOT_STATUS_STATE_1 ≤ bs.state
      · simp [h3, h2]
      · simp only [if_neg h3]
        by_cases h4 : slot = BOOT_PRIMARY_SLOT ∧ BOOT_STATUS_STATE_2 ≤ bs.state
        · simp [h4, h2, h3, BOOT_PRIMARY_SLOT, BOOT_SECONDARY_SLOT]
        · simp [h4, h2, h3]
    · simp [h1, h2]

/-- Witness for the C8 theorem: with two granules and the last one in progress
at phase S2, the primary slot's header is read from the secondary slot. -/
theorem boot_read_image_header_location_witness :
    boot_read_image_header ⟨[4, 4], [4, 4], 4, 4, 8, 1, 1, 1, 1⟩ 10
        (some ⟨2, 3, false, 8⟩) 8 BOOT_PRIMARY_SLOT =
      some (header_location_spec 2 BOOT_PRIMARY_SLOT ⟨2, 3, false, 8⟩) :=
  boot_read_image_header_location ⟨[4, 4], [4, 4], 4, 4, 8, 1, 1, 1, 1⟩ 10 8
    BOOT_PRIMARY_SLOT 2 ⟨2, 3, false, 8⟩ (by decide) (by rfl)

/-- app_max_size_adjust_to_trailer of swap_scratch.c: starting from the paired
slot size, locate the trailer start, take the larger of the two slots'
first-trailer-sector end offsets as the authoritative boundary, and subtract
the padding needed so the scratch trailer fits next to the image. -/
def app_max_size_adjust_to_trailer (g : Geo) (slot_size : Nat) : Nat :=
  let slot_trailer_sz := g.trailerSz
  let slot_trailer_off := slot_size - slot_trailer_sz
  let trailer_sector_primary_end_off :=
    get_first_trailer_sector_end_off g.primary slot_trailer_sz
  let trailer_sector_secondary_end_off :=
    get_first_trailer_sector_end_off g.secondary slot_trailer_sz
  let trailer_sector_end_off :=
    if trailer_sector_primary_end_off > trailer_sector_secondary_end_off then
      trailer_sector_primary_end_off
    else trailer_sector_secondary_end_off
  let trailer_sz_in_first_sector := trailer_sector_end_off - slot_trailer_off
  let scratch_trailer_sz := g.scratchTrailerSz
  let trailer_padding :=
    if scratch_trailer_sz > trailer_sz_in_first_sector then
      scratch_trailer_sz - trailer_sz_in_first_sector
    else 0
  slot_trailer_off - trailer_padding

/-- The scanning loop of app_max_size (swap-using-scratch configuration): the
same lock-step walk as boot_slots_compatible, accumulating the paired slot
size; some none models an early return of 0 on a violation, and none models
fuel exhaustion. -/
def appMaxLoopGo (p s : List Nat) (scratch : Nat) :
    Nat → Nat → Nat → Nat → Nat → Nat → Nat → Option (Option Nat)
  | 0, _, _, _, _, _, _ => none
  | fuel+1, i, j, sz0, sz1, smaller, slot_sz =>
    if i < p.length ∨ j < s.length then
      let step : Option (Nat × Nat × Nat × Nat × Nat) :=
        if sz0 = sz1 then
          some (i+1, j+1, sz0 + boot_img_sector_size p i,
                sz1 + boot_img_sector_size s j, smaller)
        else if sz0 < sz1 then
          if smaller = 2 then none
          else some (i+1, j, sz0 + boot_img_sector_size p i, sz1, 1)
        else
          if smaller = 1 then none
          else some (i, j+1, sz0, sz1 + boot_img_sector_size s j, 2)
      match step with
      | none => some none
      | some (i', j', sz0', sz1', smaller') =>
        if sz0' = sz1' then
          if sz0' > scratch ∨ sz1' > scratch then some none
          else appMaxLoopGo p s scratch fuel i' j' 0 0 0 (slot_sz + sz0')
        else appMaxLoopGo p s scratch fuel i' j' sz0' sz1' smaller' slot_sz
    else some (some slot_sz)

/-- app_max_size of swap_scratch.c (swap-using-scratch configuration): run the
scan and, when it completes, adjust the accumulated slot size to the
trailer. -/
def app_max_size (g : Geo) (fuel : Nat) : Option Nat :=
  match appMaxLoopGo g.primary g.secondary g.scratchSz fuel 0 0 0 0 0 0 with
  | none => none
  | some none => some 0
  | some (some slot_sz) => some (app_max_size_adjust_to_trailer g slot_sz)

/-- C9: when the geometry scan completes with paired slot size slot_sz,
app_max_size returns slot_trailer_off - padding, with slot_trailer_off the
slot size minus the trailer size, trailer_sz_in_first_sector the larger of the
two slots' first-trailer-sector end offsets minus slot_trailer_off, and the
padding equal to scratch_trailer_sz - trailer_sz_in_first_sector when the
scratch trailer is larger and 0 otherwise; consequently the result never
exceeds the slot size minus the trailer size. -/
theorem app_max_size_formula (g : Geo) (fuel slot_sz : Nat)
    (hloop : appMaxLoopGo g.primary g.secondary g.scratchSz fuel 0 0 0 0 0 0 =
      some (some slot_sz)) :
    app_max_size g fuel =
      some ((slot_sz - g.trailerSz) -
        (if g.scratchTrailerSz >
            max (get_first_trailer_sector_end_off g.primary g.trailerSz)
                (get_first_trailer_sector_end_off g.secondary g.trailerSz) -
            (slot_sz - g.trailerSz)
         then
           g.scratchTrailerSz -
            (max (get_first_trailer_sector_end_off g.primary g.trailerSz)
                 (get_first_trailer_sector_end_off g.secondary g.trailerSz) -
             (slot_sz - g.trailerSz))
         else 0)) ∧
    ∀ r, app_max_size g fuel = some r → r ≤ slot_sz - g.trailerSz := by
  have hmax :
      (if get_first_trailer_sector_end_off g.primary g.trailerSz >
          get_first_trailer_sector_end_off g.secondary g.trailerSz then
        get_first_trailer_sector_end_off g.primary g.trailerSz
      else get_first_trailer_sector_end_off g.secondary g.trailerSz) =
      max (get_first_trailer_sector_end_off g.primary g.trailerSz)
          (get_first_trailer_sector_end_off g.secondary g.trailerSz) := by
    rcases Nat.lt_or_ge (get_first_trailer_sector_end_off g.secondary g.trailerSz)
      (get_first_trailer_sector_end_off g.primary g.trailerSz) with h | h
    · rw [if_pos h, Nat.max_eq_left (le_of_lt h)]
    · rw [if_neg (by omega), Nat.max_eq_right h]
  have heq : app_max_size g fuel =
      some (app_max_size_adjust_to_trailer g slot_sz) := by
    unfold app_max_size
    rw [hloop]
  constructor
  · rw [heq]
    simp only [app_max_size_adjust_to_trailer]
    rw [hmax]
  · intro r hr
    rw [heq] at hr
    have hr' : r = app_max_size_adjust_to_trailer g slot_sz := by
      exact (Option.some.injEq _ _).mp hr.symm
    rw [hr']
    simp only [app_max_size_adjust_to_trailer]
    split_ifs <;> omega

/-- Witness for the C9 theorem: two 2-sector slots of 16-byte sectors, trailer
size 2 and scratch trailer size 8, give padding 6 and app size 24. -/
theorem app_max_size_formula_witness :
    (app_max_size ⟨[16, 16], [16, 16], 16, 16, 32, 1, 2, 8, 6⟩ 10 =
      some ((32 - (2:Nat)) -
        (if (8:Nat) >
            max (get_first_trailer_sector_end_off [16, 16] 2)
                (get_first_trailer_sector_end_off [16, 16] 2) - (32 - (2:Nat))
         then (8:Nat) -
            (max (get_first_trailer_sector_end_off [16, 16] 2)
                 (get_first_trailer_sector_end_off [16, 16] 2) - (32 - (2:Nat)))
         else 0))) ∧
    ∀ r, app_max_size ⟨[16, 16], [16, 16], 16, 16, 32, 1, 2, 8, 6⟩ 10 = some r →
      r ≤ 32 - (2:Nat) :=
  app_max_size_formula ⟨[16, 16], [16, 16], 16, 16, 32, 1, 2, 8, 6⟩ 10 32 (by rfl)

end SwapScratch
